import Mathlib

/-!
Verification development for the two JTAG-to-SPI proxy-bitstream bridges of
quartiq/bscan_spi_bitstreams:

* `src/lattice_bscan_spi.py`, class `JTAGtoSPI` (nMigen): a header-counting
  three-state FSM (`IDLE`/`HEAD`/`XFER`) clocked on the rising edge of the
  JTAG test clock, plus the `JTAGF`/`JTAGG` chain-selection detector of
  `JTAGtoSPI._detect_jtag_state`.
* `src/xilinx_bscan_spi.py`, class `JTAG2SPI` (migen): a latch-based bridge
  with no header counter, whose `cs_n` register lives in a falling-edge
  clock domain that is reset while the chain is deselected.

The hardware description is embedded shallowly: every synchronous clock
domain becomes an explicit step function `(state, inputs) → state`, every
combinational assignment becomes a pure function of the current state and
inputs, and machine integers of width `w` are naturals reduced `% 2 ^ w`.
-/

namespace BscanSpi

/-- Numeric value of a single wire, as nMigen/migen treat a 1-bit signal. -/
def bitVal (b : Bool) : Nat := if b then 1 else 0

/-- Fuel-bounded binary length: `bitLenAux fuel n` is the number of binary
digits of `n` provided `n ≤ fuel` (Python `int.bit_length`). -/
def bitLenAux : Nat → Nat → Nat
  | 0, _ => 0
  | fuel + 1, n => if n = 0 then 0 else bitLenAux fuel (n / 2) + 1

/-- Number of binary digits of `n` (Python `int.bit_length`). -/
def bitLen (n : Nat) : Nat := bitLenAux n n

/-- nMigen `bits_for(n)` for a non-negative `n`: `log2_int(n + 1, False)`
for positive `n`, and `1` for `n = 0` (the sign-bit fallback). -/
def bitsFor (n : Nat) : Nat := if n = 0 then 1 else bitLen n

/-- Width of the nMigen signal `Signal(range(W))`:
`Shape.cast(range(W)) = unsigned(max(bits_for(0), bits_for(W - 1)))`.
This is the width of `head` in `JTAGtoSPI.elaborate`
(`head = Signal(range(len(bits)), reset=len(bits)-1)`). -/
def headWidth (W : Nat) : Nat := max (bitsFor 0) (bitsFor (W - 1))

/-- The three states of the bridge FSM in `JTAGtoSPI.elaborate`
(`with m.FSM() as fsm`); the first declared state, `IDLE`, is the nMigen
reset state. The spec calls `HEAD` "HEADER" and `XFER` "TRANSFER". -/
inductive FsmState
  | IDLE
  | HEAD
  | XFER
  deriving DecidableEq, Repr

/-- Inputs of the Lattice bridge sampled once per rising TCK edge, the
fields of `Record(_wire_layout())` that the bridge reads (`tdo` is an
output; `tck` is the clock itself and appears separately where the
combinational block reads its level). The model follows the simulation
wiring of `JTAGtoSPI.elaborate` (no `spi_pins`), where
`jtag_sel1_capture = sel & capture` and `jtag_sel1_shift = sel & shift`. -/
structure JtagIn where
  sel : Bool
  shift : Bool
  capture : Bool
  tdi : Bool
  deriving DecidableEq, Repr

/-- `self.jtag_sel1_capture.eq(self.jtag.sel & self.jtag.capture)`. -/
def jtag_sel1_capture (i : JtagIn) : Bool := i.sel && i.capture

/-- `self.jtag_sel1_shift.eq(self.jtag.sel & self.jtag.shift)`. -/
def jtag_sel1_shift (i : JtagIn) : Bool := i.sel && i.shift

/-- Registered state of the Lattice bridge: the FSM state register, the
`W`-bit shift register `bits` (declared `reset_less=True`) and the
`headWidth W`-bit down counter `head` (reset value `W - 1`). -/
structure LatticeState where
  fsm : FsmState
  bits : Nat
  head : Nat
  deriving DecidableEq, Repr

/-- Next value of `bits`, from the `m.d.sync` assignments of the FSM:
in `HEAD`, `bits.eq(Cat(self.jtag.tdi, bits))` truncated to `W` bits
(shift left by one, new LSB = `tdi`); in `XFER`, `bits.eq(bits - 1)`
with wraparound; otherwise `bits` holds its value. -/
def bitsNext (W : Nat) (s : LatticeState) (i : JtagIn) : Nat :=
  match s.fsm with
  | .IDLE => s.bits
  | .HEAD => (2 * s.bits + bitVal i.tdi) % 2 ^ W
  | .XFER => (s.bits + (2 ^ W - 1)) % 2 ^ W

/-- Next value of `head`: in `HEAD`, `head.eq(head - 1)` with wraparound at
the signal width `headWidth W`; otherwise `head` holds its value. -/
def headNext (W : Nat) (s : LatticeState) : Nat :=
  match s.fsm with
  | .HEAD => (s.head + (2 ^ headWidth W - 1)) % 2 ^ headWidth W
  | _ => s.head

/-- Next FSM state, from the `m.next` assignments:
`IDLE`: `If(self.jtag_sel1_shift & self.jtag.tdi): m.next = "HEAD"`;
`HEAD`: `If(head == 0): m.next = "XFER"`;
`XFER`: `If(bits == 0): m.next = "IDLE"`. -/
def fsmNext (s : LatticeState) (i : JtagIn) : FsmState :=
  match s.fsm with
  | .IDLE => if jtag_sel1_shift i && i.tdi then .HEAD else .IDLE
  | .HEAD => if s.head = 0 then .XFER else .HEAD
  | .XFER => if s.bits = 0 then .IDLE else .XFER

/-- One rising-TCK edge of the Lattice bridge's `sync` clock domain.
The domain reset is `cd_sync.rst.eq(self.jtag_sel1_capture)`: when it is
asserted the FSM register returns to `IDLE` and `head` to its reset value
`W - 1`, while `bits`, being `reset_less`, still takes its D input. -/
def latticeStep (W : Nat) (s : LatticeState) (i : JtagIn) : LatticeState :=
  if jtag_sel1_capture i then
    { fsm := .IDLE, bits := bitsNext W s i, head := W - 1 }
  else
    { fsm := fsmNext s i, bits := bitsNext W s i, head := headNext W s }

/-- Run the Lattice bridge over a list of per-edge inputs. -/
def latticeRun (W : Nat) (s : LatticeState) (l : List JtagIn) : LatticeState :=
  l.foldl (latticeStep W) s

/-- Power-on state of the Lattice bridge: FSM in `IDLE`, `bits` at its
initial value 0, `head` at its reset value `W - 1`. -/
def latticeInit (W : Nat) : LatticeState :=
  { fsm := .IDLE, bits := 0, head := W - 1 }

/-- The combinational outputs of the Lattice bridge, lines 127-137 and
165-168 of `src/lattice_bscan_spi.py`. `miso` is `Pin(1, "i")`: it is an
input-only pin and has no output or output-enable at all. -/
structure LatticeOut where
  cs_n_o : Bool
  cs_n_oe : Bool
  clk_oe : Bool
  mosi_oe : Bool
  mosi_o : Bool
  clk_o : Bool
  tdo : Bool
  deriving DecidableEq, Repr

/-- The `m.d.comb` block of `JTAGtoSPI.elaborate`:
`cs_n.oe = clk.oe = mosi.oe = jtag.sel`, `tdo = miso.i`, `clk.o = ~tck`,
`mosi.o = jtag.tdi`, `cs_n.o = ~fsm.ongoing("XFER")`. -/
def latticeOut (s : LatticeState) (i : JtagIn) (tck miso_i : Bool) : LatticeOut :=
  { cs_n_o := !(s.fsm == .XFER)
  , cs_n_oe := i.sel
  , clk_oe := i.sel
  , mosi_oe := i.sel
  , mosi_o := i.tdi
  , clk_o := !tck
  , tdo := miso_i }

/-- Value accumulated by `bits.eq(Cat(self.jtag.tdi, bits))` over a list of
header inputs: left shift, insert `tdi` as the new LSB, truncate to `W`
bits. -/
def shiftIn (W : Nat) : Nat → List JtagIn → Nat
  | b, [] => b
  | b, i :: t => shiftIn W ((2 * b + bitVal i.tdi) % 2 ^ W) t

/-- A Lattice bridge input while the chain is selected and in Shift-DR
(`sel = shift = 1`, `capture = 0`) carrying the given `tdi` bit. -/
def mkIn (t : Bool) : JtagIn := { sel := true, shift := true, capture := false, tdi := t }

/-- Inputs of the Xilinx `JTAG2SPI` bridge, the fields of its `jtag`
record that the bridge reads, sampled once per clock edge of the relevant
derived domain (`clk` is the clock itself and appears separately where the
combinational block reads its level). -/
structure XilinxIn where
  sel : Bool
  shift : Bool
  tdi : Bool
  deriving DecidableEq, Repr

/-- `en.eq(self.jtag.sel & self.jtag.shift)` in `JTAG2SPI.__init__`. -/
def xilinxEn (i : XilinxIn) : Bool := i.sel && i.shift

/-- The combinational outputs of the Xilinx bridge, lines 64-75 of
`src/xilinx_bscan_spi.py`: all three output-enables equal `en`,
`miso.oe = 0`, `clk.o = jtag.clk` (NOT inverted), `mosi.o = jtag.tdi`.
`tck` stands for the instantaneous level of `jtag.clk`. -/
structure XilinxOut where
  clk_oe : Bool
  cs_n_oe : Bool
  mosi_oe : Bool
  miso_oe : Bool
  clk_o : Bool
  mosi_o : Bool
  deriving DecidableEq, Repr

/-- The `self.comb` block of `JTAG2SPI.__init__` (output part). -/
def xilinxOut (i : XilinxIn) (tck : Bool) : XilinxOut :=
  { clk_oe := xilinxEn i
  , cs_n_oe := xilinxEn i
  , mosi_oe := xilinxEn i
  , miso_oe := false
  , clk_o := tck
  , mosi_o := i.tdi }

/-- One falling-TCK edge of the Xilinx bridge's `cd_fall` domain
(`cd_fall.clk = ~jtag.clk`, synchronous reset `cd_fall.rst = ~en`), for the
`cs_n.o` register (reset value 1):
`self.sync.fall += If(self.jtag.tdi, self.cs_n.o.eq(0))`. -/
def xilinxCsStep (c : Bool) (i : XilinxIn) : Bool :=
  if !xilinxEn i then true
  else if i.tdi then false
  else c

/-- Run the Xilinx `cs_n.o` register over a list of per-falling-edge
inputs. -/
def xilinxCsRun (c : Bool) (l : List XilinxIn) : Bool :=
  l.foldl xilinxCsStep c

/-- One rising-TCK edge of the Xilinx bridge's reset-less `cd_rise`
domain, for the `jtag.tdo` register:
`self.sync.rise += self.jtag.tdo.eq(self.miso.i)`. -/
def xilinxTdoStep (_tdo miso_i : Bool) : Bool := miso_i

/-- Trace of the Xilinx `jtag.tdo` register: element `n` is the value of
`tdo` during cycle `n`, starting from `tdo0` and applying `xilinxTdoStep`
at each rising edge with that cycle's `miso.i`. -/
def xilinxTdoTrace : Bool → List Bool → List Bool
  | t0, [] => [t0]
  | t0, m :: ms => t0 :: xilinxTdoTrace (xilinxTdoStep t0 m) ms

/-- The two states of the chain-selection detector FSM in
`JTAGtoSPI._detect_jtag_state` (lines 90-99 of
`src/lattice_bscan_spi.py`); `IDLE` is declared first and is the reset
state, `TLRST` is the wait state entered when TAP reset is seen. -/
inductive DetState
  | IDLE
  | TLRST
  deriving DecidableEq, Repr

/-- Inputs of the detector, sampled once per rising TCK edge: `rst` is
the `sync` clock-domain reset `cd_sync.rst = jtag_sel1_capture` (in
hardware mode `JCE1 & ~JSHIFT`, i.e. chain 1 selected and TAP in
Capture-DR) — the detector FSM and the `jtag.sel` latch live in that
reset-bearing domain; `rst_n` is the primitive's `JRSTN` (TAP reset,
active low) and `rti1` its `JRTI1` (chain 1 selected and TAP in
Run-Test/Idle). -/
structure DetIn where
  rst : Bool
  rst_n : Bool
  rti1 : Bool
  deriving DecidableEq, Repr

/-- Registered state of the detector: its FSM state and the `jtag.sel`
latch it drives. -/
structure Detector where
  st : DetState
  sel : Bool
  deriving DecidableEq, Repr

/-- One rising-TCK edge of the detector FSM. Both registers sit in the
`sync` domain of `JTAGtoSPI.elaborate`, so the synchronous reset
`cd_sync.rst = jtag_sel1_capture` returns the FSM register to its reset
state `IDLE` and the ordinary (not reset-less) `jtag.sel` signal to its
reset value 0. Otherwise:
`IDLE`: `If(~jtag_rst_n): sync sel.eq(0); next = "TLRST"`;
`TLRST`: `If(~sel): sync sel.eq(jtag_rti1)` (state unchanged),
`Else(): next = "IDLE"` (latch unchanged). -/
def detStep (d : Detector) (i : DetIn) : Detector :=
  if i.rst then { st := .IDLE, sel := false }
  else
    match d.st with
    | .IDLE => if !i.rst_n then { st := .TLRST, sel := false } else d
    | .TLRST =>
        if !d.sel then { st := .TLRST, sel := i.rti1 }
        else { st := .IDLE, sel := d.sel }

/-- Run the detector over a list of per-edge inputs. -/
def detRun (d : Detector) (l : List DetIn) : Detector :=
  l.foldl detStep d

/-- The concrete input stream of the spec's `W = 4` scenario, amended to
what the code actually consumes: one triggering `1` bit, then the four
header bits `1,0,1,1` (length field `0b1011 = 11`), then twelve payload
bits, all with the chain selected and shifting. -/
def c2Inputs : List JtagIn :=
  mkIn true :: mkIn true :: mkIn false :: mkIn true :: mkIn true ::
    List.replicate 12 (mkIn true)

/-! Helper lemmas about the embedded step functions. -/

theorem latticeRun_nil (W : Nat) (s : LatticeState) : latticeRun W s [] = s := rfl

theorem latticeRun_cons (W : Nat) (s : LatticeState) (i : JtagIn) (t : List JtagIn) :
    latticeRun W s (i :: t) = latticeRun W (latticeStep W s i) t := rfl

theorem latticeRun_append (W : Nat) (s : LatticeState) (l1 l2 : List JtagIn) :
    latticeRun W s (l1 ++ l2) = latticeRun W (latticeRun W s l1) l2 :=
  List.foldl_append _ _ _ _

theorem shiftIn_append (W b : Nat) (l1 l2 : List JtagIn) :
    shiftIn W b (l1 ++ l2) = shiftIn W (shiftIn W b l1) l2 := by
  induction l1 generalizing b with
  | nil => rfl
  | cons i t ih => simp [shiftIn, ih]

/-- Decrement-by-one of a `m`-bit down counter, written as the hardware's
add-with-wraparound, does not wrap while the counter is positive. -/
theorem mod_two_pow_sub_one (h m : Nat) (h1 : 1 ≤ h) (h2 : h < 2 ^ m) :
    (h + (2 ^ m - 1)) % 2 ^ m = h - 1 := by
  have hp : 0 < 2 ^ m := Nat.pos_pow_of_pos m (by omega)
  have he : h + (2 ^ m - 1) = (h - 1) + 2 ^ m := by omega
  rw [he, Nat.add_mod_right, Nat.mod_eq_of_lt (by omega)]

theorem lt_two_pow_bitLenAux (fuel : Nat) :
    ∀ n, n ≤ fuel → n < 2 ^ bitLenAux fuel n := by
  induction fuel with
  | zero =>
      intro n hn
      have : n = 0 := by omega
      simp [this, bitLenAux]
  | succ f ih =>
      intro n hn
      by_cases h0 : n = 0
      · simp [h0, bitLenAux]
      · have hrec : n / 2 < 2 ^ bitLenAux f (n / 2) := ih (n / 2) (by omega)
        have hpow : 2 ^ (bitLenAux f (n / 2) + 1) = 2 * 2 ^ bitLenAux f (n / 2) := by
          rw [Nat.pow_succ]; ring
        simp only [bitLenAux, h0, if_false]
        omega

/-- The reset value `W - 1` of `head` fits in the signal's width. -/
theorem headReset_lt (W : Nat) : W - 1 < 2 ^ headWidth W := by
  by_cases h0 : W - 1 = 0
  · have : 0 < 2 ^ headWidth W := Nat.pos_pow_of_pos _ (by omega)
    omega
  · have h1 : W - 1 < 2 ^ bitLen (W - 1) := lt_two_pow_bitLenAux (W - 1) (W - 1) le_rfl
    have h2 : bitLen (W - 1) ≤ headWidth W := by
      simp [headWidth, bitsFor, h0]
    exact lt_of_lt_of_le h1 (Nat.pow_le_pow_right (by omega) h2)

/-- While the counter stays positive and no capture reset occurs, the FSM
remains in `HEAD`, shifting one `tdi` bit per cycle into `bits` and
decrementing `head` once per cycle. -/
theorem latticeRun_headPhase (W : Nat) (l : List JtagIn)
    (hc : ∀ i ∈ l, jtag_sel1_capture i = false) :
    ∀ b h : Nat, l.length ≤ h → h < 2 ^ headWidth W →
      latticeRun W ⟨.HEAD, b, h⟩ l = ⟨.HEAD, shiftIn W b l, h - l.length⟩ := by
  induction l with
  | nil => intro b h _ _; simp [latticeRun_nil, shiftIn]
  | cons i t ih =>
      intro b h hlen hh
      have hi : jtag_sel1_capture i = false := hc i (List.mem_cons_self i t)
      have hlt : t.length + 1 ≤ h := by
        simpa using hlen
      have hne : ¬ h = 0 := by omega
      have hdec : (h + (2 ^ headWidth W - 1)) % 2 ^ headWidth W = h - 1 :=
        mod_two_pow_sub_one h (headWidth W) (by omega) hh
      have hstep : latticeStep W ⟨.HEAD, b, h⟩ i
          = ⟨.HEAD, (2 * b + bitVal i.tdi) % 2 ^ W, h - 1⟩ := by
        simp [latticeStep, hi, fsmNext, bitsNext, headNext, hne, hdec]
      rw [latticeRun_cons, hstep,
        ih (fun j hj => hc j (List.mem_cons_of_mem i hj)) _ (h - 1) (by omega) (by omega)]
      have harith : h - 1 - t.length = h - (i :: t).length := by
        simp only [List.length_cons]; omega
      simp [shiftIn, harith]

/-- The Xilinx `tdo` register delays `miso` by exactly one cycle. -/
theorem xilinxTdoTrace_delay (tdo0 : Bool) (misos : List Bool) :
    ∀ n, n < misos.length →
      (xilinxTdoTrace tdo0 misos).getD (n + 1) false = misos.getD n false := by
  induction misos generalizing tdo0 with
  | nil => intro n hn; simp at hn
  | cons m ms ih =>
      intro n hn
      cases n with
      | zero =>
          show (xilinxTdoTrace (xilinxTdoStep tdo0 m) ms).getD 0 false = m
          cases ms <;> rfl
      | succ k =>
          have hk : k < ms.length := by simpa using hn
          show (xilinxTdoTrace (xilinxTdoStep tdo0 m) ms).getD (k + 1) false
              = ms.getD k false
          exact ih _ k hk

/-- Once the `jtag.sel` latch of the detector is set, it stays set as long
as the TAP does not assert reset and the `sync` domain's capture reset
does not fire. -/
theorem detRun_holds_sel (l : List DetIn) :
    ∀ d : Detector, d.sel = true → (∀ i ∈ l, i.rst = false ∧ i.rst_n = true) →
      (detRun d l).sel = true := by
  induction l with
  | nil => intro d hd _; exact hd
  | cons i t ih =>
      intro d hd hl
      obtain ⟨hi1, hi2⟩ := hl i (List.mem_cons_self i t)
      have hstep : (detStep d i).sel = true := by
        obtain ⟨st, sv⟩ := d
        cases st <;> simp_all [detStep]
      exact ih _ hstep (fun j hj => hl j (List.mem_cons_of_mem i hj))

/-- The Xilinx `cs_n.o` register, once 0, stays 0 while `en` holds. -/
theorem xilinxCsRun_low (l : List XilinxIn) (hen : ∀ j ∈ l, xilinxEn j = true) :
    xilinxCsRun false l = false := by
  induction l with
  | nil => rfl
  | cons j t ih =>
      have hj : xilinxEn j = true := hen j (List.mem_cons_self j t)
      have hstep : xilinxCsStep false j = false := by
        simp [xilinxCsStep, hj]
      show xilinxCsRun (xilinxCsStep false j) t = false
      rw [hstep]
      exact ih (fun k hk => hen k (List.mem_cons_of_mem j hk))

/-! Claim theorems. -/

/-- C1 (amended): for every header width `W ≥ 1`, from a capture-primed
`IDLE` state (`head = W - 1`), a cycle with `selected_shift` asserted and
`tdi = 1` moves the FSM to `HEADER` without recording that triggering bit
in the accumulator; the FSM then remains in `HEADER` for exactly `W`
further cycles, shifting those `W` following `tdi` bits into the
accumulator, and is in `TRANSFER` exactly `W` cycles after the cycle that
consumed the triggering bit, with the accumulator holding the `W` bits
that FOLLOWED the trigger. -/
theorem c1_header_consumption (W b0 : Nat) (hW : 1 ≤ W)
    (trig : JtagIn) (ht1 : jtag_sel1_capture trig = false)
    (ht2 : jtag_sel1_shift trig = true) (ht3 : trig.tdi = true)
    (hdr : List JtagIn) (hlen : hdr.length = W)
    (hc : ∀ i ∈ hdr, jtag_sel1_capture i = false) :
    latticeStep W ⟨.IDLE, b0, W - 1⟩ trig = ⟨.HEAD, b0, W - 1⟩ ∧
    (∀ k, k < W →
      (latticeRun W ⟨.IDLE, b0, W - 1⟩ (trig :: hdr.take k)).fsm = .HEAD) ∧
    (latticeRun W ⟨.IDLE, b0, W - 1⟩ (trig :: hdr)).fsm = .XFER ∧
    (latticeRun W ⟨.IDLE, b0, W - 1⟩ (trig :: hdr)).bits = shiftIn W b0 hdr := by
  have hstep1 : latticeStep W ⟨.IDLE, b0, W - 1⟩ trig = ⟨.HEAD, b0, W - 1⟩ := by
    simp [latticeStep, ht1, fsmNext, ht2, ht3, bitsNext, headNext]
  have hmid : ∀ k, k < W →
      (latticeRun W ⟨.IDLE, b0, W - 1⟩ (trig :: hdr.take k)).fsm = .HEAD := by
    intro k hk
    rw [latticeRun_cons, hstep1]
    have hkl : (hdr.take k).length ≤ W - 1 := by
      simp [List.length_take, hlen]; omega
    rw [latticeRun_headPhase W (hdr.take k)
      (fun j hj => hc j (List.take_subset k hdr hj)) b0 (W - 1) hkl (headReset_lt W)]
  obtain ⟨j, hj⟩ : ∃ j, hdr.drop (W - 1) = [j] := by
    have hl2len : (hdr.drop (W - 1)).length = 1 := by
      simp [List.length_drop, hlen]; omega
    cases h2 : hdr.drop (W - 1) with
    | nil => rw [h2] at hl2len; simp at hl2len
    | cons a t =>
        rw [h2] at hl2len
        have ht0 : t = [] := by
          apply List.length_eq_zero.mp
          have hlc : t.length + 1 = 1 := by simpa using hl2len
          omega
        exact ⟨a, by rw [ht0]⟩
  have hl1len : (hdr.take (W - 1)).length = W - 1 := by
    simp [List.length_take, hlen]
  have hsplit : hdr = hdr.take (W - 1) ++ [j] := by
    rw [← hj]; exact (List.take_append_drop _ _).symm
  have hjc : jtag_sel1_capture j = false := by
    apply hc
    have hmem : j ∈ hdr.drop (W - 1) := by rw [hj]; exact List.mem_singleton_self j
    exact List.drop_subset (W - 1) hdr hmem
  have hrun1 : latticeRun W ⟨.HEAD, b0, W - 1⟩ (hdr.take (W - 1))
      = ⟨.HEAD, shiftIn W b0 (hdr.take (W - 1)), 0⟩ := by
    have hres := latticeRun_headPhase W (hdr.take (W - 1))
      (fun i hi => hc i (List.take_subset (W - 1) hdr hi)) b0 (W - 1)
      (le_of_eq hl1len) (headReset_lt W)
    rw [hres, hl1len, Nat.sub_self]
  have hlast : latticeStep W ⟨.HEAD, shiftIn W b0 (hdr.take (W - 1)), 0⟩ j
      = ⟨.XFER, (2 * shiftIn W b0 (hdr.take (W - 1)) + bitVal j.tdi) % 2 ^ W,
          (0 + (2 ^ headWidth W - 1)) % 2 ^ headWidth W⟩ := by
    simp [latticeStep, hjc, fsmNext, bitsNext, headNext]
  have hbits : shiftIn W b0 hdr
      = (2 * shiftIn W b0 (hdr.take (W - 1)) + bitVal j.tdi) % 2 ^ W := by
    conv_lhs => rw [hsplit]
    rw [shiftIn_append]
    rfl
  have hfull : latticeRun W ⟨.IDLE, b0, W - 1⟩ (trig :: hdr)
      = ⟨.XFER, shiftIn W b0 hdr, (0 + (2 ^ headWidth W - 1)) % 2 ^ headWidth W⟩ := by
    rw [latticeRun_cons, hstep1]
    conv_lhs => rw [hsplit]
    rw [latticeRun_append, hrun1, latticeRun_cons, hlast, latticeRun_nil, hbits]
  exact ⟨hstep1, hmid, by rw [hfull], by rw [hfull]⟩

/-- Witness for C1 at `W = 2`, trigger bit `1`, header bits `0, 0`. -/
theorem c1_header_consumption_w :
    latticeStep 2 ⟨.IDLE, 0, 1⟩ (mkIn true) = ⟨.HEAD, 0, 1⟩ ∧
    (∀ k, k < 2 → (latticeRun 2 ⟨.IDLE, 0, 1⟩
        (mkIn true :: ([mkIn false, mkIn false].take k))).fsm = .HEAD) ∧
    (latticeRun 2 ⟨.IDLE, 0, 1⟩ (mkIn true :: [mkIn false, mkIn false])).fsm = .XFER ∧
    (latticeRun 2 ⟨.IDLE, 0, 1⟩ (mkIn true :: [mkIn false, mkIn false])).bits
      = shiftIn 2 0 [mkIn false, mkIn false] :=
  c1_header_consumption 2 0 (by decide) (mkIn true) (by decide) (by decide) (by decide)
    [mkIn false, mkIn false] (by decide) (by decide)

/-- C1 counterexample: the claim makes the triggering `1` the FIRST of the
`W` header bits, so with `W = 2` and the stream `1, 0, 0` the header would
be `1, 0` (accumulator `0b10 = 2`) and the FSM would be in `TRANSFER`
after 2 cycles. On the code, after 2 cycles the FSM is still in `HEADER`;
it reaches `TRANSFER` only after consuming the trigger plus 2 more bits,
and its accumulator then holds the two bits AFTER the trigger,
`0b00 = 0 ≠ 2`. -/
theorem c1_cex :
    (latticeRun 2 ⟨.IDLE, 0, 1⟩ [mkIn true, mkIn false]).fsm = .HEAD ∧
    ¬ (latticeRun 2 ⟨.IDLE, 0, 1⟩ [mkIn true, mkIn false]).fsm = .XFER ∧
    (latticeRun 2 ⟨.IDLE, 0, 1⟩ [mkIn true, mkIn false, mkIn false]).fsm = .XFER ∧
    (latticeRun 2 ⟨.IDLE, 0, 1⟩ [mkIn true, mkIn false, mkIn false]).bits = 0 ∧
    shiftIn 2 0 [mkIn true, mkIn false] = 2 := by decide

/-- C2 (amended): with `W = 4`, after the triggering `1`, the NEXT four
`tdi` bits `1,0,1,1` form the header and encode transfer length
`0b1011 = 11`; the FSM then spends exactly 12 cycles in `TRANSFER`
(counter values 11 down to 0) with `cs_n` low, forwarding `tdi` to `mosi`
on every cycle, and then returns to `IDLE` with `cs_n` high. Cycles are
numbered 0 (trigger), 1-4 (header), 5-16 (`TRANSFER`), 17 (`IDLE`). -/
theorem c2_concrete_scenario :
    (latticeRun 4 (latticeInit 4) (c2Inputs.take 5)).fsm = .XFER ∧
    (latticeRun 4 (latticeInit 4) (c2Inputs.take 5)).bits = 11 ∧
    (∀ k, k < 18 →
      ((latticeRun 4 (latticeInit 4) (c2Inputs.take k)).fsm = .XFER ↔
        5 ≤ k ∧ k ≤ 16)) ∧
    (∀ k, k < 18 →
      ((latticeOut (latticeRun 4 (latticeInit 4) (c2Inputs.take k))
          (c2Inputs.getD k (mkIn false)) false false).cs_n_o = false ↔
        5 ≤ k ∧ k ≤ 16)) ∧
    (∀ k, k < 18 →
      (latticeOut (latticeRun 4 (latticeInit 4) (c2Inputs.take k))
          (c2Inputs.getD k (mkIn false)) false false).mosi_o
        = (c2Inputs.getD k (mkIn false)).tdi) ∧
    (latticeRun 4 (latticeInit 4) c2Inputs).fsm = .IDLE := by decide

/-- C2 counterexample: feeding exactly the claim's stream `1,0,1,1` (then
`1`) leaves the FSM still in `HEADER` after the four bits; those four bits
are NOT the header. The header is taken from the bits after the trigger,
so the accumulated length is `0b0111 = 7`, not `11`. -/
theorem c2_cex :
    (latticeRun 4 (latticeInit 4) [mkIn true, mkIn false, mkIn true, mkIn true]).fsm
      = .HEAD ∧
    ¬ (latticeRun 4 (latticeInit 4) [mkIn true, mkIn false, mkIn true, mkIn true]).fsm
      = .XFER ∧
    (latticeRun 4 (latticeInit 4)
      [mkIn true, mkIn false, mkIn true, mkIn true, mkIn true]).bits = 7 ∧
    ¬ (latticeRun 4 (latticeInit 4)
      [mkIn true, mkIn false, mkIn true, mkIn true, mkIn true]).bits = 11 := by decide

/-- C3: in the Lattice bridge, `cs_n.o` is low iff the FSM is currently in
`TRANSFER`, purely as a combinational function of the current state
(`cs_n.o = ~fsm.ongoing("XFER")`, no latch); in `IDLE` and in `HEADER`
(for any counter and accumulator contents, any inputs) `cs_n.o` is high. -/
theorem c3_cs_n_pure_state_function (s : LatticeState) (i : JtagIn) (tck m : Bool) :
    ((latticeOut s i tck m).cs_n_o = false ↔ s.fsm = .XFER) ∧
    (latticeOut ⟨.IDLE, s.bits, s.head⟩ i tck m).cs_n_o = true ∧
    (latticeOut ⟨.HEAD, s.bits, s.head⟩ i tck m).cs_n_o = true := by
  obtain ⟨f, b, h⟩ := s
  refine ⟨?_, rfl, rfl⟩
  cases f <;> simp [latticeOut]

/-- C4 (amended): the Lattice bridge drives its SPI clock as the logical
inverse of TCK (`clk.o = ~tck`), but the Xilinx bridge drives its SPI
clock equal to the JTAG clock directly (`clk.o = jtag.clk`), not
inverted. -/
theorem c4_spi_clock_phase (s : LatticeState) (i : JtagIn) (x : XilinxIn)
    (tck m : Bool) :
    (latticeOut s i tck m).clk_o = !tck ∧ (xilinxOut x tck).clk_o = tck :=
  ⟨rfl, rfl⟩

/-- C4 counterexample: in the Xilinx bridge, with TCK high the SPI clock
output is high as well, not the claimed inverse. -/
theorem c4_cex : ¬ (xilinxOut ⟨true, true, true⟩ true).clk_o = !true := by decide

/-- C5 (amended): the output-enables of `cs_n`, `clk` and `mosi` equal
`sel` in the Lattice bridge but `sel AND shift` in the Xilinx bridge;
`miso` is never driven (`miso.oe = 0` in the Xilinx bridge; in the Lattice
bridge `miso` is an input-only `Pin(1, "i")` with no output-enable at
all); deasserting `sel` forces every SPI output-enable low combinationally
in both bridges. -/
theorem c5_oe_policy (s : LatticeState) (i : JtagIn) (x : XilinxIn) (tck m : Bool) :
    ((latticeOut s i tck m).cs_n_oe = i.sel ∧
     (latticeOut s i tck m).clk_oe = i.sel ∧
     (latticeOut s i tck m).mosi_oe = i.sel) ∧
    ((xilinxOut x tck).cs_n_oe = (x.sel && x.shift) ∧
     (xilinxOut x tck).clk_oe = (x.sel && x.shift) ∧
     (xilinxOut x tck).mosi_oe = (x.sel && x.shift)) ∧
    (xilinxOut x tck).miso_oe = false ∧
    ((latticeOut s { i with sel := false } tck m).cs_n_oe = false ∧
     (latticeOut s { i with sel := false } tck m).clk_oe = false ∧
     (latticeOut s { i with sel := false } tck m).mosi_oe = false) ∧
    ((xilinxOut { x with sel := false } tck).cs_n_oe = false ∧
     (xilinxOut { x with sel := false } tck).clk_oe = false ∧
     (xilinxOut { x with sel := false } tck).mosi_oe = false) :=
  ⟨⟨rfl, rfl, rfl⟩, ⟨rfl, rfl, rfl⟩, rfl, ⟨rfl, rfl, rfl⟩, ⟨rfl, rfl, rfl⟩⟩

/-- C5 counterexample: in the Xilinx bridge with `sel = 1` but
`shift = 0`, the output-enables are low, so they do not equal `sel`. -/
theorem c5_cex :
    (⟨true, false, false⟩ : XilinxIn).sel = true ∧
    ¬ (xilinxOut ⟨true, false, false⟩ false).cs_n_oe = true := by decide

/-- C6 (amended): in both bridges `mosi` equals the incoming `tdi` of the
same cycle (combinational); in the Xilinx bridge `tdo` equals `miso`
delayed by exactly one test-clock period (the rising-edge `tdo` register);
in the Lattice bridge `tdo` equals `miso.i` combinationally, with no
bridge-internal delay (the read-back latency there is contributed by the
external BSCAN primitive, per the latency comment in the source). -/
theorem c6_transfer_latency (s : LatticeState) (i : JtagIn) (x : XilinxIn)
    (tck m tdo0 : Bool) (misos : List Bool) (n : Nat) (hn : n < misos.length) :
    (latticeOut s i tck m).mosi_o = i.tdi ∧
    (xilinxOut x tck).mosi_o = x.tdi ∧
    (latticeOut s i tck m).tdo = m ∧
    (xilinxTdoTrace tdo0 misos).getD (n + 1) false = misos.getD n false :=
  ⟨rfl, rfl, rfl, xilinxTdoTrace_delay tdo0 misos n hn⟩

/-- Witness for C6 with the miso trace `[0, 1]` at cycle index 0. -/
theorem c6_transfer_latency_w :
    (latticeOut ⟨.XFER, 3, 0⟩ (mkIn true) false true).mosi_o = (mkIn true).tdi ∧
    (xilinxOut ⟨true, true, true⟩ false).mosi_o = (⟨true, true, true⟩ : XilinxIn).tdi ∧
    (latticeOut ⟨.XFER, 3, 0⟩ (mkIn true) false true).tdo = true ∧
    (xilinxTdoTrace false [false, true]).getD (0 + 1) false
      = ([false, true]).getD 0 false :=
  c6_transfer_latency ⟨.XFER, 3, 0⟩ (mkIn true) ⟨true, true, true⟩ false true false
    [false, true] 0 (by decide)

/-- C6 counterexample: the Lattice `tdo` is combinational. With the miso
trace `[0, 1]`, the claimed one-period delay requires `tdo` during cycle 1
to equal miso of cycle 0 (= 0); the bridge instead outputs miso of cycle 1
itself (= 1). -/
theorem c6_cex :
    ¬ (latticeOut ⟨.XFER, 5, 0⟩ (mkIn true) false (([false, true]).getD 1 false)).tdo
      = ([false, true]).getD 0 false := by decide

/-- C7 (amended): on TAP reset assertion in its idle state the detector
clears the `sel` latch and enters the wait state `TLRST`; while the latch
is clear it RE-SAMPLES the chain-1-idle line `JRTI1` on every cycle (a
sampled 0 is not held); the first cycle where the line reads 1 sets the
latch, after which the detector returns to its idle state and the latch is
held for as long as the TAP does not assert reset again AND the `sync`
domain's capture reset (`jtag_sel1_capture`, chain-1 Capture-DR) does not
fire; that capture reset clears the latch and returns the detector FSM to
its idle state without any TAP reset. -/
theorem c7_detector_latch (sv rn r : Bool) (l : List DetIn) (d : Detector)
    (hd : d.sel = true) (hl : ∀ i ∈ l, i.rst = false ∧ i.rst_n = true) :
    detStep d ⟨true, rn, r⟩ = ⟨.IDLE, false⟩ ∧
    detStep ⟨.IDLE, sv⟩ ⟨false, false, r⟩ = ⟨.TLRST, false⟩ ∧
    detStep ⟨.TLRST, false⟩ ⟨false, rn, r⟩ = ⟨.TLRST, r⟩ ∧
    detStep ⟨.TLRST, true⟩ ⟨false, rn, r⟩ = ⟨.IDLE, true⟩ ∧
    detStep ⟨.IDLE, sv⟩ ⟨false, true, r⟩ = ⟨.IDLE, sv⟩ ∧
    (detRun d l).sel = true :=
  ⟨rfl, rfl, rfl, rfl, rfl, detRun_holds_sel l d hd hl⟩

/-- Witness for C7: a set latch survives two capture-free, reset-free
cycles. -/
theorem c7_detector_latch_w :
    detStep ⟨.TLRST, true⟩ ⟨true, true, true⟩ = ⟨.IDLE, false⟩ ∧
    detStep ⟨.IDLE, false⟩ ⟨false, false, true⟩ = ⟨.TLRST, false⟩ ∧
    detStep ⟨.TLRST, false⟩ ⟨false, true, true⟩ = ⟨.TLRST, true⟩ ∧
    detStep ⟨.TLRST, true⟩ ⟨false, true, true⟩ = ⟨.IDLE, true⟩ ∧
    detStep ⟨.IDLE, false⟩ ⟨false, true, true⟩ = ⟨.IDLE, false⟩ ∧
    (detRun ⟨.TLRST, true⟩ [⟨false, true, false⟩, ⟨false, true, true⟩]).sel = true :=
  c7_detector_latch false true true [⟨false, true, false⟩, ⟨false, true, true⟩]
    ⟨.TLRST, true⟩ rfl (by decide)

/-- C7 counterexample: after a TAP reset, the detector's first sample of
the chain-1-idle line reads 0, yet one cycle later — with no intervening
return to Test-Logic-Reset — the latch becomes 1: the detector does not
capture "exactly once" and does not hold a captured 0. Moreover a set
latch is cleared, without any TAP reset, by a single cycle in which the
`sync` domain's capture reset (chain-1 Capture-DR) fires. -/
theorem c7_cex :
    detRun ⟨.IDLE, false⟩ [⟨false, false, false⟩, ⟨false, true, false⟩]
      = ⟨.TLRST, false⟩ ∧
    detRun ⟨.IDLE, false⟩
        [⟨false, false, false⟩, ⟨false, true, false⟩, ⟨false, true, true⟩]
      = ⟨.TLRST, true⟩ ∧
    detRun ⟨.IDLE, true⟩ [⟨true, true, false⟩] = ⟨.IDLE, false⟩ := by decide

/-- C8 (amended): the bridge state machine is total — every state and
input combination produces exactly one defined next state — and an
accumulated header value of zero causes a degenerate SINGLE-CYCLE
`TRANSFER`: the FSM enters `TRANSFER` with the counter at zero, asserts
`cs_n` for exactly that one cycle, and returns to `IDLE` at the next edge;
a valid degenerate case rather than an error. -/
theorem c8_total_and_zero_header (W h : Nat) (s : LatticeState) (j i : JtagIn)
    (tck m : Bool) (hc : jtag_sel1_capture i = false) :
    (∃! t : LatticeState, latticeStep W s j = t) ∧
    (latticeStep W ⟨.XFER, 0, h⟩ i).fsm = .IDLE ∧
    (latticeOut ⟨.XFER, 0, h⟩ i tck m).cs_n_o = false := by
  refine ⟨⟨latticeStep W s j, rfl, fun y hy => hy.symm⟩, ?_, rfl⟩
  simp [latticeStep, hc, fsmNext]

/-- Witness for C8 at `W = 4`. -/
theorem c8_total_and_zero_header_w :
    (∃! t : LatticeState, latticeStep 4 ⟨.HEAD, 9, 2⟩ (mkIn true) = t) ∧
    (latticeStep 4 ⟨.XFER, 0, 3⟩ (mkIn false)).fsm = .IDLE ∧
    (latticeOut ⟨.XFER, 0, 3⟩ (mkIn false) false false).cs_n_o = false :=
  c8_total_and_zero_header 4 3 ⟨.HEAD, 9, 2⟩ (mkIn true) (mkIn false) false false rfl

/-- C8 counterexample: with `W = 2` and an all-zero header, the FSM does
NOT return to `IDLE` with zero transfer cycles: it spends one full cycle
in `TRANSFER` with `cs_n` asserted before returning to `IDLE`. -/
theorem c8_cex :
    (latticeRun 2 (latticeInit 2) [mkIn true, mkIn false, mkIn false]).fsm = .XFER ∧
    (latticeOut (latticeRun 2 (latticeInit 2) [mkIn true, mkIn false, mkIn false])
        (mkIn false) false false).cs_n_o = false ∧
    (latticeRun 2 (latticeInit 2) [mkIn true, mkIn false, mkIn false, mkIn false]).fsm
      = .IDLE := by decide

/-- C9: in the Lattice bridge, `mosi.o` equals `jtag.tdi` and `jtag.tdo`
equals `miso.i` combinationally, for every FSM state (including `IDLE`
and `HEADER`) and regardless of `sel`; only the pin output-enables are
gated, by `sel`. -/
theorem c9_comb_forwarding (s : LatticeState) (i : JtagIn) (tck m : Bool) :
    (latticeOut s i tck m).mosi_o = i.tdi ∧
    (latticeOut s i tck m).tdo = m ∧
    (latticeOut s i tck m).cs_n_oe = i.sel ∧
    (latticeOut s i tck m).clk_oe = i.sel ∧
    (latticeOut s i tck m).mosi_oe = i.sel :=
  ⟨rfl, rfl, rfl, rfl, rfl⟩

/-- C10: the Xilinx bridge has no header counter: its `cs_n` register is
driven low by a high `tdi` at a falling TCK edge while `en = sel AND
shift` holds, stays low for every subsequent falling edge while `en`
holds, and the `cd_fall` reset (`~en`) is the only way it returns to 1 —
deselection is the sole mechanism that ends a transfer. -/
theorem c10_xilinx_cs_latch (x : XilinxIn) (c : Bool) (l : List XilinxIn)
    (hen : ∀ j ∈ l, xilinxEn j = true) :
    (xilinxEn x = true → x.tdi = true → xilinxCsStep c x = false) ∧
    (xilinxEn x = false → xilinxCsStep c x = true) ∧
    (xilinxCsStep false x = true → xilinxEn x = false) ∧
    xilinxCsRun false l = false := by
  refine ⟨?_, ?_, ?_, xilinxCsRun_low l hen⟩
  · intro h1 h2
    simp [xilinxCsStep, h1, h2]
  · intro h1
    simp [xilinxCsStep, h1]
  · intro h1
    cases hx : xilinxEn x
    · rfl
    · simp [xilinxCsStep, hx] at h1

/-- Witness for C10: `cs_n` goes low on a high `tdi` and stays low over
enabled cycles with `tdi = 0` and `tdi = 1`. -/
theorem c10_xilinx_cs_latch_w :
    (xilinxEn ⟨true, true, true⟩ = true → (⟨true, true, true⟩ : XilinxIn).tdi = true →
      xilinxCsStep true ⟨true, true, true⟩ = false) ∧
    (xilinxEn ⟨true, true, true⟩ = false → xilinxCsStep true ⟨true, true, true⟩ = true) ∧
    (xilinxCsStep false ⟨true, true, true⟩ = true → xilinxEn ⟨true, true, true⟩ = false) ∧
    xilinxCsRun false [⟨true, true, false⟩, ⟨true, true, true⟩] = false :=
  c10_xilinx_cs_latch ⟨true, true, true⟩ true [⟨true, true, false⟩, ⟨true, true, true⟩]
    (by decide)

end BscanSpi
